import Mathlib

/-!
# Mesh generators of `Source.cpp`

A shallow embedding of `setupCylinderVertices`, `setupSphereVertices` and of the
graphics-resource calls of `main`.

* `float` is a type parameter `α` carrying field arithmetic; `glm::pi<float>()`, `cos` and
  `sin` are parameters.  The theorems about numeric values instantiate them with `ℝ`,
  `Real.pi`, `Real.cos`, `Real.sin`.
* The compile-time constants `CYLINDER_SEGMENTS`, `CYLINDER_RADIUS`, `CYLINDER_HEIGHT`,
  `SPHERE_STACKS`, `SPHERE_SEGMENTS`, `SPHERE_RADIUS` are parameters.
* A global C array is a `CArray`: its cells, and the record of the positions stored to.
  A store outside the array has no defined behaviour and is `none`.
* `int` counters are natural numbers: every counter is bounded by the size of the array it
  walks, and that size is an `int` constant expression of the array declaration.
-/

namespace Source

/-- A fixed-size C array: `cells` holds the contents, `stored` lists the positions that have
been assigned to, oldest first. -/
structure CArray (β : Type) where
  cells : List β
  stored : List Nat

/-- The statement `a[k++] = v;` on the pair (array, counter). -/
def storeInc {β : Type} (s : CArray β × Nat) (v : β) : Option (CArray β × Nat) :=
  if s.2 < s.1.cells.length then
    some (⟨s.1.cells.set s.2 v, s.1.stored ++ [s.2]⟩, s.2 + 1)
  else
    none

/-- The loop `for (int i = 0; i < n; ++i) body(i)`: runs `body 0`, ..., `body (n-1)` in this
order, threading the state. -/
def forUpTo {σ : Type} (body : Nat → σ → Option σ) : Nat → σ → Option σ
  | 0, s => some s
  | n + 1, s => (forUpTo body n s).bind (body n)

/-- An array freshly declared with the given contents: nothing stored yet. -/
def CArray.fresh {β : Type} (cells : List β) : CArray β := ⟨cells, []⟩

section Cylinder

variable {α : Type} [Field α]

/-- Body of the loop of `setupCylinderVertices` (lines 112-129) for loop variable `i`. -/
def cylinderBody (N : Nat) (r h : α) (cos sin : α → α) (segmentAngle : α) (i : Nat)
    (s : CArray α × Nat) : Option (CArray α × Nat) := do
  let x := r * cos ((i : α) * segmentAngle)
  let z := r * sin ((i : α) * segmentAngle)
  -- lower vertex
  let s ← storeInc s x
  let s ← storeInc s (-h / 2)
  let s ← storeInc s z
  let s ← storeInc s ((i : α) / (N : α))
  let s ← storeInc s 0
  -- upper vertex
  let s ← storeInc s x
  let s ← storeInc s (h / 2)
  let s ← storeInc s z
  let s ← storeInc s ((i : α) / (N : α))
  storeInc s 1

/-- The function `setupCylinderVertices` (lines 106-130) acting on the global
`cylinderVertices`; returns the array and the final value of the local `vertexIndex`. -/
def setupCylinderVertices (N : Nat) (r h : α) (pi : α) (cos sin : α → α)
    (cylinderVertices : CArray α) : Option (CArray α × Nat) :=
  let segmentAngle : α := 2 * pi / (N : α)
  let vertexIndex : Nat := 0
  forUpTo (cylinderBody N r h cos sin segmentAngle) (N + 1) (cylinderVertices, vertexIndex)

/-- Declared length of `cylinderVertices` (line 91). -/
def cylinderVerticesSize (N : Nat) : Nat := (N + 1) * 2 * 5

end Cylinder

section Sphere

variable {α : Type} [Field α]

/-- Body of the inner loop of the vertex pass of `setupSphereVertices` (lines 146-158), for
stack `i` (whose polar angle `phi` is computed by the outer loop) and segment `j`. -/
def sphereVertexBody (M N : Nat) (r : α) (pi : α) (cos sin : α → α) (phi : α) (i j : Nat)
    (s : CArray α × Nat) : Option (CArray α × Nat) := do
  let theta := 2 * pi * (j : α) / (N : α)
  let x := r * sin phi * cos theta
  let y := r * cos phi
  let z := r * sin phi * sin theta
  let s ← storeInc s x
  let s ← storeInc s y
  let s ← storeInc s z
  let s ← storeInc s ((j : α) / (N : α))
  storeInc s ((i : α) / (M : α))

/-- Body of the outer loop of the vertex pass (lines 143-159), for stack `i`. -/
def sphereStackBody (M N : Nat) (r : α) (pi : α) (cos sin : α → α) (i : Nat)
    (s : CArray α × Nat) : Option (CArray α × Nat) :=
  let phi := pi * (i : α) / (M : α)
  forUpTo (sphereVertexBody M N r pi cos sin phi i) (N + 1) s

/-- Body of the inner loop of the index pass (lines 165-176), for stack `i`, segment `j`. -/
def sphereIndexBody (N : Nat) (i j : Nat) (s : CArray Nat × Nat) : Option (CArray Nat × Nat) := do
  let topLeft := i * (N + 1) + j
  let bottomLeft := (i + 1) * (N + 1) + j
  let s ← storeInc s topLeft
  let s ← storeInc s bottomLeft
  let s ← storeInc s (topLeft + 1)
  let s ← storeInc s (topLeft + 1)
  let s ← storeInc s bottomLeft
  storeInc s (bottomLeft + 1)

/-- What `setupSphereVertices` leaves behind: the two global arrays and the final values of the
locals `vertexIndex` and `index`. -/
structure SphereResult (α : Type) where
  sphereVertices : CArray α
  sphereIndices : CArray Nat
  vertexIndex : Nat
  index : Nat

/-- The function `setupSphereVertices` (lines 139-178) acting on the globals `sphereVertices`
and `sphereIndices`. -/
def setupSphereVertices (M N : Nat) (r : α) (pi : α) (cos sin : α → α)
    (sphereVertices : CArray α) (sphereIndices : CArray Nat) : Option (SphereResult α) :=
  let vertexIndex : Nat := 0
  (forUpTo (sphereStackBody M N r pi cos sin) (M + 1) (sphereVertices, vertexIndex)).bind
    fun sv =>
      let index : Nat := 0
      (forUpTo (fun i s => forUpTo (sphereIndexBody N i) N s) M (sphereIndices, index)).bind
        fun si => some ⟨sv.1, si.1, sv.2, si.2⟩

/-- Declared length of `sphereVertices` (line 136). -/
def sphereVerticesSize (M N : Nat) : Nat := (N + 1) * (M + 1) * 5

/-- Declared length of `sphereIndices` (line 137). -/
def sphereIndicesSize (M N : Nat) : Nat := N * M * 6

end Sphere

/-- The vertex number `k` of a buffer laid out as in the attribute pointers of lines 262-265:
stride five floats, position at offset 0 (three floats), texture coordinate at offset 3. -/
def vertex5 {β : Type} (cells : List β) (k : Nat) : Option (β × β × β × β × β) := do
  let x ← cells[5 * k]?
  let y ← cells[5 * k + 1]?
  let z ← cells[5 * k + 2]?
  let u ← cells[5 * k + 3]?
  let v ← cells[5 * k + 4]?
  pure (x, y, z, u, v)

/-- The 3D position of vertex number `k`: the first three floats of `vertex5`. -/
def position {β : Type} (cells : List β) (k : Nat) : Option (β × β × β) :=
  (vertex5 cells k).map fun w => (w.1, w.2.1, w.2.2.1)

/-- The texture coordinate `u` of vertex number `k`: the fourth float of `vertex5`. -/
def texU {β : Type} (cells : List β) (k : Nat) : Option β :=
  (vertex5 cells k).map fun w => w.2.2.2.1

/-! ## Graphics resources of `main` -/

/-- The device objects that `main` and `loadTexture` name. -/
inductive Resource
  | vertexShader | fragmentShader | shaderProgram
  | cylinderVAO | cylinderVBO
  | planeVAO | planeVBO | planeEBO
  | cubeVAO | cubeVBO
  | textureID
  deriving DecidableEq

/-- The calls of `main` that matter for the lifetime of device objects: creation
(`glCreateShader`, `glCreateProgram`, `glGenVertexArrays`, `glGenBuffers`, `glGenTextures`),
deletion (`glDeleteShader`, `glDeleteProgram`, `glDeleteVertexArrays`, `glDeleteBuffers`),
the texture upload (`glTexImage2D` with `glGenerateMipmap`), one pass through the render loop,
and `glfwTerminate`. -/
inductive Event
  | create (r : Resource)
  | delete (r : Resource)
  | texImage (r : Resource)
  | frame
  | glfwTerminate
  deriving DecidableEq

/-- What the outside world answers to `main`. -/
structure Env where
  /-- Result of `glfwInit()` (line 189). -/
  glfwInitOk : Bool
  /-- Whether `glfwCreateWindow` returned a window (line 200). -/
  windowOk : Bool
  /-- Result of `gladLoadGLLoader` (line 210). -/
  gladOk : Bool
  /-- Whether `stbi_load` returned data (line 458). -/
  textureLoaded : Bool
  /-- Number of passes through the render loop before `glfwWindowShouldClose` holds. -/
  frames : Nat

/-- The function `loadTexture` (lines 451-477): one `glGenTextures`, then the upload when
`stbi_load` returned data and only a message when it did not. -/
def loadTexture (textureLoaded : Bool) : List Event :=
  [Event.create Resource.textureID] ++
    (if textureLoaded then [Event.texImage Resource.textureID] else [])

/-- The function `main` (lines 180-438): the events it issues and its return value.  The two
generator calls, the shader compilation, the buffer uploads and the draw calls create and delete
no device object and issue no event. -/
def main (env : Env) : List Event × Int :=
  if !env.glfwInitOk then ([], -1)
  else if !env.windowOk then ([Event.glfwTerminate], -1)
  else if !env.gladOk then ([], -1)
  else
    ([Event.create Resource.vertexShader, Event.create Resource.fragmentShader,
      Event.create Resource.shaderProgram,
      Event.delete Resource.vertexShader, Event.delete Resource.fragmentShader,
      Event.create Resource.cylinderVAO, Event.create Resource.cylinderVBO,
      Event.create Resource.planeVAO, Event.create Resource.planeVBO,
      Event.create Resource.planeEBO,
      Event.create Resource.cubeVAO, Event.create Resource.cubeVBO]
      ++ loadTexture env.textureLoaded
      ++ List.replicate env.frames Event.frame
      ++ [Event.delete Resource.planeVAO, Event.delete Resource.planeVBO,
          Event.delete Resource.planeEBO,
          Event.delete Resource.cylinderVAO, Event.delete Resource.cylinderVBO,
          Event.delete Resource.cubeVAO, Event.delete Resource.cubeVBO,
          Event.delete Resource.shaderProgram,
          Event.glfwTerminate], 0)

/-! ## Sequential filling -/

/-- The array `a` results from `a0` by storing `f 0, ..., f (k-1)` to positions `0, ..., k-1`
in this order. -/
structure Filled {β : Type} (a0 : CArray β) (k : Nat) (f : Nat → β) (a : CArray β) : Prop where
  length_eq : a.cells.length = a0.cells.length
  stored_eq : a.stored = a0.stored ++ List.range k
  written : ∀ p, p < k → a.cells[p]? = some (f p)
  untouched : ∀ p, k ≤ p → a.cells[p]? = a0.cells[p]?

section ClosedForm

variable {α : Type} [Field α]

/-- Field `m` (0-9) of the pair of vertices that iteration `i` of the cylinder loop stores. -/
def cylinderField (N : Nat) (r h : α) (pi : α) (cos sin : α → α) (i m : Nat) : α :=
  match m with
  | 0 => r * cos ((i : α) * (2 * pi / (N : α)))
  | 1 => -h / 2
  | 2 => r * sin ((i : α) * (2 * pi / (N : α)))
  | 3 => (i : α) / (N : α)
  | 4 => 0
  | 5 => r * cos ((i : α) * (2 * pi / (N : α)))
  | 6 => h / 2
  | 7 => r * sin ((i : α) * (2 * pi / (N : α)))
  | 8 => (i : α) / (N : α)
  | _ => 1

/-- Closed form of the float that `setupCylinderVertices` leaves at position `p`. -/
def cylinderCell (N : Nat) (r h : α) (pi : α) (cos sin : α → α) (p : Nat) : α :=
  cylinderField N r h pi cos sin (p / 10) (p % 10)

end ClosedForm

section SphereClosedForm

variable {α : Type} [Field α]

/-- Field `m` (0-4) of the vertex that the sphere vertex pass stores for stack `i`,
segment `j`. -/
def sphereField (M N : Nat) (r : α) (pi : α) (cos sin : α → α) (i j m : Nat) : α :=
  match m with
  | 0 => r * sin (pi * (i : α) / (M : α)) * cos (2 * pi * (j : α) / (N : α))
  | 1 => r * cos (pi * (i : α) / (M : α))
  | 2 => r * sin (pi * (i : α) / (M : α)) * sin (2 * pi * (j : α) / (N : α))
  | 3 => (j : α) / (N : α)
  | _ => (i : α) / (M : α)

/-- Closed form of the float that `setupSphereVertices` leaves at position `p` of
`sphereVertices`. -/
def sphereCell (M N : Nat) (r : α) (pi : α) (cos sin : α → α) (p : Nat) : α :=
  sphereField M N r pi cos sin (p / 5 / (N + 1)) (p / 5 % (N + 1)) (p % 5)

end SphereClosedForm

/-- Entry `m` (0-5) of the two triangles that the index pass stores for stack `i`,
segment `j`. -/
def sphereIndexField (N : Nat) (i j m : Nat) : Nat :=
  match m with
  | 0 => i * (N + 1) + j
  | 1 => (i + 1) * (N + 1) + j
  | 2 => i * (N + 1) + j + 1
  | 3 => i * (N + 1) + j + 1
  | 4 => (i + 1) * (N + 1) + j
  | _ => (i + 1) * (N + 1) + j + 1

/-- Closed form of the entry that `setupSphereVertices` leaves at position `p` of
`sphereIndices`. -/
def sphereIndexCell (N : Nat) (p : Nat) : Nat :=
  sphereIndexField N (p / 6 / N) (p / 6 % N) (p % 6)

/-! ## Lemmas on sequential filling -/

theorem Filled.zero {β : Type} (a0 : CArray β) (f : Nat → β) : Filled a0 0 f a0 :=
  ⟨rfl, by simp, fun p hp => absurd hp (Nat.not_lt_zero p), fun _ _ => rfl⟩

theorem storeInc_filled {β : Type} {a0 a : CArray β} {k : Nat} {f : Nat → β} {v : β}
    (hF : Filled a0 k f a) (hk : k < a0.cells.length) (hv : v = f k) :
    ∃ a1, storeInc (a, k) v = some (a1, k + 1) ∧ Filled a0 (k + 1) f a1 := by
  have hlen := hF.length_eq
  refine ⟨⟨a.cells.set k v, a.stored ++ [k]⟩, ?_, ?_, ?_, ?_, ?_⟩
  · simp [storeInc, hlen, hk]
  · simp [hlen]
  · simp [hF.stored_eq, List.range_succ]
  · intro p hp
    by_cases hpk : k = p
    · subst hpk
      simp [hlen, hk, hv]
    · rw [List.getElem?_set_ne hpk]
      exact hF.written p (by omega)
  · intro p hp
    have hpk : k ≠ p := by omega
    show (a.cells.set k v)[p]? = _
    rw [List.getElem?_set_ne hpk]
    exact hF.untouched p (by omega)


theorem Filled.cells_eq {β : Type} {a0 a : CArray β} {k : Nat} {f : Nat → β}
    (hF : Filled a0 k f a) (hk : a0.cells.length = k) : a.cells = (List.range k).map f := by
  apply List.ext_getElem?
  intro p
  by_cases hp : p < k
  · rw [hF.written p hp]
    simp [List.getElem?_range hp]
  · have h1 : a.cells[p]? = none := by
      apply List.getElem?_eq_none
      rw [hF.length_eq, hk]
      omega
    rw [h1]
    symm
    apply List.getElem?_eq_none
    simp
    omega

theorem getElem?_map_range {β : Type} (f : Nat → β) (L p : Nat) (hp : p < L) :
    ((List.range L).map f)[p]? = some (f p) := by
  simp [List.getElem?_range hp]

theorem vertex5_map_range {β : Type} (f : Nat → β) (L k : Nat) (hk : 5 * k + 5 ≤ L) :
    vertex5 ((List.range L).map f) k =
      some (f (5 * k), f (5 * k + 1), f (5 * k + 2), f (5 * k + 3), f (5 * k + 4)) := by
  unfold vertex5
  rw [getElem?_map_range f L (5 * k) (by omega), getElem?_map_range f L (5 * k + 1) (by omega),
    getElem?_map_range f L (5 * k + 2) (by omega), getElem?_map_range f L (5 * k + 3) (by omega),
    getElem?_map_range f L (5 * k + 4) (by omega)]
  rfl

theorem vertex5_map_range_none {β : Type} (f : Nat → β) (L k : Nat) (hk : L < 5 * k + 5) :
    vertex5 ((List.range L).map f) k = none := by
  have h4 : ((List.range L).map f)[5 * k + 4]? = none := by
    apply List.getElem?_eq_none
    simp
    omega
  unfold vertex5
  rw [h4]
  cases ((List.range L).map f)[5 * k]? <;> cases ((List.range L).map f)[5 * k + 1]? <;>
    cases ((List.range L).map f)[5 * k + 2]? <;> cases ((List.range L).map f)[5 * k + 3]? <;> rfl

section CylinderProofs

variable {α : Type} [Field α]

theorem cylinderCell_at (N : Nat) (r h pi : α) (cos sin : α → α) (i m : Nat) (hm : m < 10) :
    cylinderCell N r h pi cos sin (10 * i + m) = cylinderField N r h pi cos sin i m := by
  have h1 : (10 * i + m) / 10 = i := by omega
  have h2 : (10 * i + m) % 10 = m := by omega
  unfold cylinderCell
  rw [h1, h2]

theorem cylinderBody_filled (N : Nat) (r h pi : α) (cos sin : α → α) {a0 a : CArray α}
    {i : Nat} (hF : Filled a0 (10 * i) (cylinderCell N r h pi cos sin) a)
    (hlen : 10 * i + 10 ≤ a0.cells.length) :
    ∃ a1, cylinderBody N r h cos sin (2 * pi / (N : α)) i (a, 10 * i) = some (a1, 10 * (i + 1)) ∧
      Filled a0 (10 * (i + 1)) (cylinderCell N r h pi cos sin) a1 := by
  have c := fun m hm => cylinderCell_at N r h pi cos sin i m hm
  obtain ⟨a1, e1, F1⟩ := storeInc_filled (v := r * cos ((i : α) * (2 * pi / (N : α)))) hF
    (by omega) (by simpa using (c 0 (by omega)).symm)
  obtain ⟨a2, e2, F2⟩ := storeInc_filled (v := -h / 2) F1 (by omega) (c 1 (by omega)).symm
  obtain ⟨a3, e3, F3⟩ := storeInc_filled (v := r * sin ((i : α) * (2 * pi / (N : α)))) F2
    (by omega) (c 2 (by omega)).symm
  obtain ⟨a4, e4, F4⟩ := storeInc_filled (v := (i : α) / (N : α)) F3 (by omega)
    (c 3 (by omega)).symm
  obtain ⟨a5, e5, F5⟩ := storeInc_filled (v := (0 : α)) F4 (by omega) (c 4 (by omega)).symm
  obtain ⟨a6, e6, F6⟩ := storeInc_filled (v := r * cos ((i : α) * (2 * pi / (N : α)))) F5
    (by omega) (c 5 (by omega)).symm
  obtain ⟨a7, e7, F7⟩ := storeInc_filled (v := h / 2) F6 (by omega) (c 6 (by omega)).symm
  obtain ⟨a8, e8, F8⟩ := storeInc_filled (v := r * sin ((i : α) * (2 * pi / (N : α)))) F7
    (by omega) (c 7 (by omega)).symm
  obtain ⟨a9, e9, F9⟩ := storeInc_filled (v := (i : α) / (N : α)) F8 (by omega)
    (c 8 (by omega)).symm
  obtain ⟨b, e10, F10⟩ := storeInc_filled (v := (1 : α)) F9 (by omega) (c 9 (by omega)).symm
  refine ⟨b, ?_, F10⟩
  simp only [cylinderBody, bind, Option.bind, e1, e2, e3, e4, e5, e6, e7, e8, e9]
  exact e10

theorem forUpTo_cylinder_filled (N : Nat) (r h pi : α) (cos sin : α → α) (a0 : CArray α)
    (n : Nat) (hlen : 10 * n ≤ a0.cells.length) :
    ∃ a, forUpTo (cylinderBody N r h cos sin (2 * pi / (N : α))) n (a0, 0) = some (a, 10 * n) ∧
      Filled a0 (10 * n) (cylinderCell N r h pi cos sin) a := by
  induction n with
  | zero => exact ⟨a0, rfl, Filled.zero a0 _⟩
  | succ n ih =>
    obtain ⟨a, e, F⟩ := ih (by omega)
    obtain ⟨a1, e1, F1⟩ := cylinderBody_filled N r h pi cos sin F (by omega)
    exact ⟨a1, by simp only [forUpTo, e, Option.bind]; exact e1, F1⟩

/-- Running the generator on an array of the declared size: it returns, the counter ends at
the size, and the array is filled with the closed form. -/
theorem setupCylinderVertices_filled (N : Nat) (r h pi : α) (cos sin : α → α) (a0 : CArray α)
    (hlen : a0.cells.length = cylinderVerticesSize N) :
    ∃ a, setupCylinderVertices N r h pi cos sin a0 = some (a, cylinderVerticesSize N) ∧
      Filled a0 (cylinderVerticesSize N) (cylinderCell N r h pi cos sin) a := by
  have hs : cylinderVerticesSize N = 10 * (N + 1) := by unfold cylinderVerticesSize; omega
  rw [hs]
  exact forUpTo_cylinder_filled N r h pi cos sin a0 (N + 1) (by omega)

/-- The outcome of `setupCylinderVertices` on an array of the declared size. -/
theorem setupCylinderVertices_run (N : Nat) (r h pi : α) (cos sin : α → α) (a0 : CArray α)
    (hlen : a0.cells.length = cylinderVerticesSize N) :
    ∃ out, setupCylinderVertices N r h pi cos sin a0 = some out ∧
      out.2 = 10 * (N + 1) ∧
      out.1.stored = a0.stored ++ List.range (10 * (N + 1)) ∧
      out.1.cells = (List.range (10 * (N + 1))).map (cylinderCell N r h pi cos sin) := by
  have hs : cylinderVerticesSize N = 10 * (N + 1) := by unfold cylinderVerticesSize; omega
  obtain ⟨a, e, F⟩ := setupCylinderVertices_filled N r h pi cos sin a0 hlen
  rw [hs] at e F hlen
  exact ⟨_, e, rfl, F.stored_eq, F.cells_eq hlen⟩

/-- The two vertices of sample `i` in the filled cylinder array. -/
theorem cylinder_vertex5_pair (N : Nat) (r h pi : α) (cos sin : α → α) (i : Nat) (hi : i ≤ N) :
    vertex5 ((List.range (10 * (N + 1))).map (cylinderCell N r h pi cos sin)) (2 * i) =
        some (r * cos ((i : α) * (2 * pi / (N : α))), -h / 2,
          r * sin ((i : α) * (2 * pi / (N : α))), (i : α) / (N : α), 0) ∧
    vertex5 ((List.range (10 * (N + 1))).map (cylinderCell N r h pi cos sin)) (2 * i + 1) =
        some (r * cos ((i : α) * (2 * pi / (N : α))), h / 2,
          r * sin ((i : α) * (2 * pi / (N : α))), (i : α) / (N : α), 1) := by
  have c := fun m hm => cylinderCell_at N r h pi cos sin i m hm
  constructor
  · rw [vertex5_map_range _ _ _ (by omega)]
    have e0 : 5 * (2 * i) = 10 * i + 0 := by omega
    rw [e0]
    simp only [Nat.add_assoc, Nat.reduceAdd]
    rw [c 0 (by omega), c 1 (by omega), c 2 (by omega), c 3 (by omega), c 4 (by omega)]
    rfl
  · rw [vertex5_map_range _ _ _ (by omega)]
    have e0 : 5 * (2 * i + 1) = 10 * i + 5 := by omega
    rw [e0]
    simp only [Nat.add_assoc, Nat.reduceAdd]
    rw [c 5 (by omega), c 6 (by omega), c 7 (by omega), c 8 (by omega), c 9 (by omega)]
    rfl

/-- The `u` of vertex number `k` of the filled cylinder array is `(k / 2) / N`. -/
theorem cylinder_texU (N : Nat) (r h pi : α) (cos sin : α → α) (k : Nat)
    (hk : k < 2 * (N + 1)) :
    texU ((List.range (10 * (N + 1))).map (cylinderCell N r h pi cos sin)) k =
      some (((k / 2 : Nat) : α) / (N : α)) := by
  obtain ⟨p0, p1⟩ := cylinder_vertex5_pair N r h pi cos sin (k / 2) (by omega)
  unfold texU
  rcases Nat.mod_two_eq_zero_or_one k with h0 | h1
  · have hk2 : 2 * (k / 2) = k := by omega
    rw [hk2] at p0
    rw [p0]
    rfl
  · have hk2 : 2 * (k / 2) + 1 = k := by omega
    rw [hk2] at p1
    rw [p1]
    rfl

/-- Vertex number `k` of the filled cylinder array: its sample is `k / 2`, its height and its
`v` are chosen by the parity of `k`. -/
theorem cylinder_vertex5 (N : Nat) (r h pi : α) (cos sin : α → α) (k : Nat)
    (hk : k < 2 * (N + 1)) :
    vertex5 ((List.range (10 * (N + 1))).map (cylinderCell N r h pi cos sin)) k =
      some (r * cos (((k / 2 : Nat) : α) * (2 * pi / (N : α))),
        (if k % 2 = 0 then -h / 2 else h / 2),
        r * sin (((k / 2 : Nat) : α) * (2 * pi / (N : α))), ((k / 2 : Nat) : α) / (N : α),
        (if k % 2 = 0 then 0 else 1)) := by
  obtain ⟨p0, p1⟩ := cylinder_vertex5_pair N r h pi cos sin (k / 2) (by omega)
  rcases Nat.mod_two_eq_zero_or_one k with h0 | h1
  · have hk2 : 2 * (k / 2) = k := by omega
    rw [hk2] at p0
    rw [p0, if_pos h0, if_pos h0]
  · have hk2 : 2 * (k / 2) + 1 = k := by omega
    have hne : ¬ k % 2 = 0 := by omega
    rw [hk2] at p1
    rw [p1, if_neg hne, if_neg hne]

end CylinderProofs

section SphereProofs

variable {α : Type} [Field α]

theorem grid_div (N i j : Nat) (hj : j ≤ N) : (i * (N + 1) + j) / (N + 1) = i := by
  rw [Nat.add_comm, Nat.add_mul_div_right _ _ (Nat.succ_pos N),
    Nat.div_eq_of_lt (Nat.lt_succ_of_le hj), Nat.zero_add]

theorem grid_mod (N i j : Nat) (hj : j ≤ N) : (i * (N + 1) + j) % (N + 1) = j := by
  rw [Nat.add_comm, Nat.add_mul_mod_self_right, Nat.mod_eq_of_lt (Nat.lt_succ_of_le hj)]

theorem sphereCell_at (M N : Nat) (r pi : α) (cos sin : α → α) (i j m : Nat) (hj : j ≤ N)
    (hm : m < 5) :
    sphereCell M N r pi cos sin (5 * (i * (N + 1) + j) + m) =
      sphereField M N r pi cos sin i j m := by
  have h1 : (5 * (i * (N + 1) + j) + m) / 5 = i * (N + 1) + j := by omega
  have h2 : (5 * (i * (N + 1) + j) + m) % 5 = m := by omega
  unfold sphereCell
  rw [h1, h2, grid_div N i j hj, grid_mod N i j hj]

theorem sphereVertexBody_filled (M N : Nat) (r pi : α) (cos sin : α → α) {a0 a : CArray α}
    {i j : Nat} (hj : j ≤ N)
    (hF : Filled a0 (5 * (i * (N + 1) + j)) (sphereCell M N r pi cos sin) a)
    (hlen : 5 * (i * (N + 1) + j) + 5 ≤ a0.cells.length) :
    ∃ a1, sphereVertexBody M N r pi cos sin (pi * (i : α) / (M : α)) i j
        (a, 5 * (i * (N + 1) + j)) = some (a1, 5 * (i * (N + 1) + (j + 1))) ∧
      Filled a0 (5 * (i * (N + 1) + (j + 1))) (sphereCell M N r pi cos sin) a1 := by
  have c := fun m hm => sphereCell_at M N r pi cos sin i j m hj hm
  obtain ⟨a1, e1, F1⟩ := storeInc_filled
    (v := r * sin (pi * (i : α) / (M : α)) * cos (2 * pi * (j : α) / (N : α))) hF
    (by omega) (by simpa using (c 0 (by omega)).symm)
  obtain ⟨a2, e2, F2⟩ := storeInc_filled (v := r * cos (pi * (i : α) / (M : α))) F1
    (by omega) (c 1 (by omega)).symm
  obtain ⟨a3, e3, F3⟩ := storeInc_filled
    (v := r * sin (pi * (i : α) / (M : α)) * sin (2 * pi * (j : α) / (N : α))) F2
    (by omega) (c 2 (by omega)).symm
  obtain ⟨a4, e4, F4⟩ := storeInc_filled (v := (j : α) / (N : α)) F3 (by omega)
    (c 3 (by omega)).symm
  obtain ⟨b, e5, F5⟩ := storeInc_filled (v := (i : α) / (M : α)) F4 (by omega)
    (c 4 (by omega)).symm
  have hidx : 5 * (i * (N + 1) + (j + 1)) = 5 * (i * (N + 1) + j) + 4 + 1 := by omega
  rw [hidx]
  refine ⟨b, ?_, F5⟩
  simp only [sphereVertexBody, bind, Option.bind, e1, e2, e3, e4]
  exact e5

theorem forUpTo_sphereVertexBody_filled (M N : Nat) (r pi : α) (cos sin : α → α)
    {a0 a : CArray α} {i : Nat}
    (hF : Filled a0 (5 * (i * (N + 1))) (sphereCell M N r pi cos sin) a)
    (n : Nat) (hn : n ≤ N + 1) (hlen : 5 * (i * (N + 1) + n) ≤ a0.cells.length) :
    ∃ a1, forUpTo (sphereVertexBody M N r pi cos sin (pi * (i : α) / (M : α)) i) n
        (a, 5 * (i * (N + 1))) = some (a1, 5 * (i * (N + 1) + n)) ∧
      Filled a0 (5 * (i * (N + 1) + n)) (sphereCell M N r pi cos sin) a1 := by
  induction n with
  | zero => exact ⟨a, rfl, hF⟩
  | succ n ih =>
    obtain ⟨a1, e1, F1⟩ := ih (by omega) (by omega)
    obtain ⟨a2, e2, F2⟩ := sphereVertexBody_filled M N r pi cos sin (by omega) F1 (by omega)
    exact ⟨a2, by simp only [forUpTo, e1, Option.bind]; exact e2, F2⟩

theorem forUpTo_sphereStackBody_filled (M N : Nat) (r pi : α) (cos sin : α → α)
    (a0 : CArray α) (n : Nat) (hlen : 5 * (n * (N + 1)) ≤ a0.cells.length) :
    ∃ a, forUpTo (sphereStackBody M N r pi cos sin) n (a0, 0) = some (a, 5 * (n * (N + 1))) ∧
      Filled a0 (5 * (n * (N + 1))) (sphereCell M N r pi cos sin) a := by
  induction n with
  | zero => exact ⟨a0, by simp [forUpTo], by simpa using Filled.zero a0 _⟩
  | succ n ih =>
    have hs : (n + 1) * (N + 1) = n * (N + 1) + (N + 1) := Nat.succ_mul n (N + 1)
    rw [hs] at hlen ⊢
    obtain ⟨a, e, F⟩ := ih (by omega)
    obtain ⟨a1, e1, F1⟩ :=
      forUpTo_sphereVertexBody_filled M N r pi cos sin F (N + 1) (Nat.le_refl _) hlen
    exact ⟨a1, by simp only [forUpTo, e, Option.bind, sphereStackBody]; exact e1, F1⟩

theorem quad_div (N i j : Nat) (hj : j < N) : (i * N + j) / N = i := by
  rw [Nat.add_comm, Nat.add_mul_div_right _ _ (by omega : 0 < N), Nat.div_eq_of_lt hj,
    Nat.zero_add]

theorem quad_mod (N i j : Nat) (hj : j < N) : (i * N + j) % N = j := by
  rw [Nat.add_comm, Nat.add_mul_mod_self_right, Nat.mod_eq_of_lt hj]

theorem sphereIndexCell_at (N i j m : Nat) (hj : j < N) (hm : m < 6) :
    sphereIndexCell N (6 * (i * N + j) + m) = sphereIndexField N i j m := by
  have h1 : (6 * (i * N + j) + m) / 6 = i * N + j := by omega
  have h2 : (6 * (i * N + j) + m) % 6 = m := by omega
  unfold sphereIndexCell
  rw [h1, h2, quad_div N i j hj, quad_mod N i j hj]

theorem sphereIndexBody_filled (N : Nat) {a0 a : CArray Nat} {i j : Nat} (hj : j < N)
    (hF : Filled a0 (6 * (i * N + j)) (sphereIndexCell N) a)
    (hlen : 6 * (i * N + j) + 6 ≤ a0.cells.length) :
    ∃ a1, sphereIndexBody N i j (a, 6 * (i * N + j)) = some (a1, 6 * (i * N + (j + 1))) ∧
      Filled a0 (6 * (i * N + (j + 1))) (sphereIndexCell N) a1 := by
  have c := fun m hm => sphereIndexCell_at N i j m hj hm
  obtain ⟨a1, e1, F1⟩ := storeInc_filled (v := i * (N + 1) + j) hF
    (by omega) (by simpa using (c 0 (by omega)).symm)
  obtain ⟨a2, e2, F2⟩ := storeInc_filled (v := (i + 1) * (N + 1) + j) F1
    (by omega) (c 1 (by omega)).symm
  obtain ⟨a3, e3, F3⟩ := storeInc_filled (v := i * (N + 1) + j + 1) F2
    (by omega) (c 2 (by omega)).symm
  obtain ⟨a4, e4, F4⟩ := storeInc_filled (v := i * (N + 1) + j + 1) F3
    (by omega) (c 3 (by omega)).symm
  obtain ⟨a5, e5, F5⟩ := storeInc_filled (v := (i + 1) * (N + 1) + j) F4
    (by omega) (c 4 (by omega)).symm
  obtain ⟨b, e6, F6⟩ := storeInc_filled (v := (i + 1) * (N + 1) + j + 1) F5
    (by omega) (c 5 (by omega)).symm
  have hidx : 6 * (i * N + (j + 1)) = 6 * (i * N + j) + 5 + 1 := by omega
  rw [hidx]
  refine ⟨b, ?_, F6⟩
  simp only [sphereIndexBody, bind, Option.bind, e1, e2, e3, e4, e5]
  exact e6

theorem forUpTo_sphereIndexBody_filled (N : Nat) {a0 a : CArray Nat} {i : Nat}
    (hF : Filled a0 (6 * (i * N)) (sphereIndexCell N) a)
    (n : Nat) (hn : n ≤ N) (hlen : 6 * (i * N + n) ≤ a0.cells.length) :
    ∃ a1, forUpTo (sphereIndexBody N i) n (a, 6 * (i * N)) = some (a1, 6 * (i * N + n)) ∧
      Filled a0 (6 * (i * N + n)) (sphereIndexCell N) a1 := by
  induction n with
  | zero => exact ⟨a, rfl, hF⟩
  | succ n ih =>
    obtain ⟨a1, e1, F1⟩ := ih (by omega) (by omega)
    obtain ⟨a2, e2, F2⟩ := sphereIndexBody_filled N (by omega) F1 (by omega)
    exact ⟨a2, by simp only [forUpTo, e1, Option.bind]; exact e2, F2⟩

theorem forUpTo_sphereIndexRows_filled (N : Nat) (a0 : CArray Nat) (n : Nat)
    (hlen : 6 * (n * N) ≤ a0.cells.length) :
    ∃ a, forUpTo (fun i s => forUpTo (sphereIndexBody N i) N s) n (a0, 0) =
        some (a, 6 * (n * N)) ∧
      Filled a0 (6 * (n * N)) (sphereIndexCell N) a := by
  induction n with
  | zero => exact ⟨a0, by simp [forUpTo], by simpa using Filled.zero a0 _⟩
  | succ n ih =>
    have hs : (n + 1) * N = n * N + N := Nat.succ_mul n N
    rw [hs] at hlen ⊢
    obtain ⟨a, e, F⟩ := ih (by omega)
    obtain ⟨a1, e1, F1⟩ := forUpTo_sphereIndexBody_filled N F N (Nat.le_refl _) hlen
    exact ⟨a1, by simp only [forUpTo, e, Option.bind]; exact e1, F1⟩

/-- Running the sphere generator on arrays of the declared sizes: it returns, both counters end
at the sizes, and both arrays are filled with the closed forms. -/
theorem setupSphereVertices_filled (M N : Nat) (r pi : α) (cos sin : α → α)
    (v0 : CArray α) (i0 : CArray Nat)
    (hv : v0.cells.length = sphereVerticesSize M N)
    (hi : i0.cells.length = sphereIndicesSize M N) :
    ∃ res, setupSphereVertices M N r pi cos sin v0 i0 = some res ∧
      res.vertexIndex = sphereVerticesSize M N ∧ res.index = sphereIndicesSize M N ∧
      Filled v0 (sphereVerticesSize M N) (sphereCell M N r pi cos sin) res.sphereVertices ∧
      Filled i0 (sphereIndicesSize M N) (sphereIndexCell N) res.sphereIndices := by
  have hvs : sphereVerticesSize M N = 5 * ((M + 1) * (N + 1)) := by
    unfold sphereVerticesSize; ring
  have his : sphereIndicesSize M N = 6 * (M * N) := by
    unfold sphereIndicesSize; ring
  rw [hvs] at hv ⊢
  rw [his] at hi ⊢
  obtain ⟨a, e, F⟩ := forUpTo_sphereStackBody_filled M N r pi cos sin v0 (M + 1) (by omega)
  obtain ⟨b, e', F'⟩ := forUpTo_sphereIndexRows_filled N i0 M (by omega)
  exact ⟨⟨a, b, _, _⟩, by simp only [setupSphereVertices, e, e', Option.bind], rfl, rfl, F, F'⟩

theorem grid_lt (M N i j : Nat) (hi : i ≤ M) (hj : j ≤ N) :
    i * (N + 1) + j < (M + 1) * (N + 1) := by
  have h1 : i * (N + 1) ≤ M * (N + 1) := Nat.mul_le_mul_right _ hi
  have h2 : (M + 1) * (N + 1) = M * (N + 1) + (N + 1) := Nat.succ_mul M (N + 1)
  omega

theorem quad_lt (M N i j : Nat) (hi : i < M) (hj : j < N) : i * N + j < M * N := by
  have h1 : (i + 1) * N ≤ M * N := Nat.mul_le_mul_right _ hi
  have h2 : (i + 1) * N = i * N + N := Nat.succ_mul i N
  omega

/-- The outcome of `setupSphereVertices` on arrays of the declared sizes. -/
theorem setupSphereVertices_run (M N : Nat) (r pi : α) (cos sin : α → α)
    (v0 : CArray α) (i0 : CArray Nat)
    (hv : v0.cells.length = sphereVerticesSize M N)
    (hi : i0.cells.length = sphereIndicesSize M N) :
    ∃ res, setupSphereVertices M N r pi cos sin v0 i0 = some res ∧
      res.vertexIndex = 5 * ((M + 1) * (N + 1)) ∧ res.index = 6 * (M * N) ∧
      res.sphereVertices.stored = v0.stored ++ List.range (5 * ((M + 1) * (N + 1))) ∧
      res.sphereIndices.stored = i0.stored ++ List.range (6 * (M * N)) ∧
      res.sphereVertices.cells =
        (List.range (5 * ((M + 1) * (N + 1)))).map (sphereCell M N r pi cos sin) ∧
      res.sphereIndices.cells = (List.range (6 * (M * N))).map (sphereIndexCell N) := by
  have hvs : sphereVerticesSize M N = 5 * ((M + 1) * (N + 1)) := by
    unfold sphereVerticesSize; ring
  have his : sphereIndicesSize M N = 6 * (M * N) := by
    unfold sphereIndicesSize; ring
  obtain ⟨res, e, h1, h2, F, F'⟩ := setupSphereVertices_filled M N r pi cos sin v0 i0 hv hi
  rw [hvs] at h1 F hv
  rw [his] at h2 F' hi
  exact ⟨res, e, h1, h2, F.stored_eq, F'.stored_eq, F.cells_eq hv, F'.cells_eq hi⟩

/-- The vertex of stack `i`, segment `j` in the filled sphere vertex array is vertex number
`i * (N + 1) + j`. -/
theorem sphere_vertex5 (M N : Nat) (r pi : α) (cos sin : α → α) (i j : Nat) (hi : i ≤ M)
    (hj : j ≤ N) :
    vertex5 ((List.range (5 * ((M + 1) * (N + 1)))).map (sphereCell M N r pi cos sin))
        (i * (N + 1) + j) =
      some (r * sin (pi * (i : α) / (M : α)) * cos (2 * pi * (j : α) / (N : α)),
        r * cos (pi * (i : α) / (M : α)),
        r * sin (pi * (i : α) / (M : α)) * sin (2 * pi * (j : α) / (N : α)),
        (j : α) / (N : α), (i : α) / (M : α)) := by
  have c := fun m hm => sphereCell_at M N r pi cos sin i j m hj hm
  have hlt := grid_lt M N i j hi hj
  rw [vertex5_map_range _ _ _ (by omega)]
  have c0 := c 0 (by omega)
  rw [Nat.add_zero] at c0
  rw [c0, c 1 (by omega), c 2 (by omega), c 3 (by omega), c 4 (by omega)]
  rfl

/-- Entry `m` of the quad of stack `i`, segment `j` in the filled sphere index array. -/
theorem sphere_index_entry (M N : Nat) (i j m : Nat) (hi : i < M) (hj : j < N) (hm : m < 6) :
    ((List.range (6 * (M * N))).map (sphereIndexCell N))[6 * (i * N + j) + m]? =
      some (sphereIndexField N i j m) := by
  have hlt := quad_lt M N i j hi hj
  rw [getElem?_map_range _ _ _ (by omega), sphereIndexCell_at N i j m hj hm]

theorem sphereIndexField_lt (M N i j m : Nat) (hi : i < M) (hj : j < N) :
    sphereIndexField N i j m < (M + 1) * (N + 1) := by
  have h1 : (i + 1) * (N + 1) ≤ M * (N + 1) := Nat.mul_le_mul_right _ hi
  have h2 : (M + 1) * (N + 1) = M * (N + 1) + (N + 1) := Nat.succ_mul M (N + 1)
  have h3 : (i + 1) * (N + 1) = i * (N + 1) + (N + 1) := Nat.succ_mul i (N + 1)
  unfold sphereIndexField
  split <;> omega

end SphereProofs

/-! ## The cylinder generator -/

/-- C1. Cylinder vertex formula, floats read as real numbers: on an array of the declared size
`setupCylinderVertices` returns, and for every sample `i ≤ N`, with `θ = i * (2π / N)`, the
floats at positions `10 i .. 10 i + 4` are `(r cos θ, -h/2, r sin θ, i/N, 0)` and those at
positions `10 i + 5 .. 10 i + 9` are `(r cos θ, h/2, r sin θ, i/N, 1)`. -/
theorem cylinder_vertex_formula (N : Nat) (r h : ℝ) (_hN : 3 ≤ N) (_hr : 0 < r) (_hh : 0 < h)
    (cylinderVertices : CArray ℝ)
    (hsize : cylinderVertices.cells.length = cylinderVerticesSize N)
    (i : Nat) (hi : i ≤ N) :
    ∃ out, setupCylinderVertices N r h Real.pi Real.cos Real.sin cylinderVertices = some out ∧
      out.1.cells[10 * i]? = some (r * Real.cos ((i : ℝ) * (2 * Real.pi / (N : ℝ)))) ∧
      out.1.cells[10 * i + 1]? = some (-h / 2) ∧
      out.1.cells[10 * i + 2]? = some (r * Real.sin ((i : ℝ) * (2 * Real.pi / (N : ℝ)))) ∧
      out.1.cells[10 * i + 3]? = some ((i : ℝ) / (N : ℝ)) ∧
      out.1.cells[10 * i + 4]? = some 0 ∧
      out.1.cells[10 * i + 5]? = some (r * Real.cos ((i : ℝ) * (2 * Real.pi / (N : ℝ)))) ∧
      out.1.cells[10 * i + 6]? = some (h / 2) ∧
      out.1.cells[10 * i + 7]? = some (r * Real.sin ((i : ℝ) * (2 * Real.pi / (N : ℝ)))) ∧
      out.1.cells[10 * i + 8]? = some ((i : ℝ) / (N : ℝ)) ∧
      out.1.cells[10 * i + 9]? = some 1 := by
  obtain ⟨out, e, -, -, hc⟩ :=
    setupCylinderVertices_run N r h Real.pi Real.cos Real.sin cylinderVertices hsize
  have g : ∀ m, m < 10 → out.1.cells[10 * i + m]? =
      some (cylinderField N r h Real.pi Real.cos Real.sin i m) := by
    intro m hm
    rw [hc, getElem?_map_range _ _ _ (by omega), cylinderCell_at _ _ _ _ _ _ i m hm]
  exact ⟨out, e, g 0 (by omega), g 1 (by omega), g 2 (by omega), g 3 (by omega),
    g 4 (by omega), g 5 (by omega), g 6 (by omega), g 7 (by omega), g 8 (by omega),
    g 9 (by omega)⟩

/-- Scenario of C1: `N = 4`, `r = 1`, `h = 2` on a zeroed array of 50 floats gives the first
vertex `(1, -1, 0, 0, 0)` and the bottom vertex of sample `i = 2` equal to
`(-1, -1, 0, 1/2, 0)`. -/
theorem cylinder_vertex_formula_witness :
    (setupCylinderVertices 4 (1 : ℝ) 2 Real.pi Real.cos Real.sin
        (CArray.fresh (List.replicate 50 0))).bind (fun out => vertex5 out.1.cells 0)
      = some (1, -1, 0, 0, 0) ∧
    (setupCylinderVertices 4 (1 : ℝ) 2 Real.pi Real.cos Real.sin
        (CArray.fresh (List.replicate 50 0))).bind (fun out => vertex5 out.1.cells 4)
      = some (-1, -1, 0, 1 / 2, 0) := by
  obtain ⟨out, e, a0, a1, a2, a3, a4, -⟩ := cylinder_vertex_formula 4 1 2 (by norm_num)
    (by norm_num) (by norm_num) (CArray.fresh (List.replicate 50 0)) (by decide) 0 (by norm_num)
  obtain ⟨out', e', b0, b1, b2, b3, b4, -⟩ := cylinder_vertex_formula 4 1 2 (by norm_num)
    (by norm_num) (by norm_num) (CArray.fresh (List.replicate 50 0)) (by decide) 2 (by norm_num)
  have hoo : out' = out := by
    rw [e] at e'
    exact (Option.some.inj e').symm
  subst hoo
  have hpi : (2 : ℝ) * (2 * Real.pi / 4) = Real.pi := by ring
  rw [e]
  constructor
  · simp only [Option.bind, vertex5, bind]
    simp only [Nat.mul_zero, Nat.zero_add] at a0 a1 a2 a3 a4 ⊢
    rw [a0, a1, a2, a3, a4]
    norm_num
  · simp only [Option.bind, vertex5, bind]
    norm_num at b0 b1 b2 b3 b4 ⊢
    rw [b0, b1, b2, b3, b4]
    norm_num [hpi]

/-- C2. Cylinder vertex count and exact buffer fit: on a freshly declared array of the declared
size `(N+1)*2*5` the generator returns; the final `vertexIndex` equals that size; exactly
`2*(N+1)*5` stores are made, they go to positions `0, 1, ..., 10*(N+1)-1` in this order, so
every store is in bounds and every position is stored to exactly once; and the array holds
vertex number `k` exactly when `k < 2*(N+1)`. -/
theorem cylinder_exact_fit {α : Type} [Field α] (N : Nat) (r h pi : α) (cos sin : α → α)
    (_hN : 3 ≤ N) (cells : List α) (hsize : cells.length = cylinderVerticesSize N) :
    ∃ out, setupCylinderVertices N r h pi cos sin (CArray.fresh cells) = some out ∧
      out.2 = cylinderVerticesSize N ∧
      out.1.cells.length = cylinderVerticesSize N ∧
      out.1.stored.length = 2 * (N + 1) * 5 ∧
      out.1.stored = List.range (10 * (N + 1)) ∧
      (∀ k ∈ out.1.stored, k < cylinderVerticesSize N) ∧
      (∀ k, k < 10 * (N + 1) → out.1.stored.count k = 1) ∧
      (∀ k, (vertex5 out.1.cells k).isSome = true ↔ k < 2 * (N + 1)) := by
  have hs : cylinderVerticesSize N = 10 * (N + 1) := by unfold cylinderVerticesSize; omega
  obtain ⟨out, e, hvi, hst, hc⟩ :=
    setupCylinderVertices_run N r h pi cos sin (CArray.fresh cells) hsize
  have hst' : out.1.stored = List.range (10 * (N + 1)) := by
    rw [hst]
    simp [CArray.fresh]
  refine ⟨out, e, by rw [hvi, hs], by rw [hc, hs]; simp, ?_, hst', ?_, ?_, ?_⟩
  · rw [hst', List.length_range]
    omega
  · intro k hk
    rw [hst', List.mem_range] at hk
    omega
  · intro k hk
    rw [hst']
    exact List.count_eq_one_of_mem (List.nodup_range _) (List.mem_range.mpr hk)
  · intro k
    rw [hc]
    constructor
    · intro hsome
      by_contra hlt
      rw [vertex5_map_range_none _ _ _ (by omega)] at hsome
      exact absurd hsome (by simp)
    · intro hk
      rw [vertex5_map_range _ _ _ (by omega)]
      rfl

/-- Instance of C2 for `N = 3` over the rationals, on a zeroed array of 40 cells. -/
theorem cylinder_exact_fit_witness :
    ∃ out, setupCylinderVertices 3 (1 : ℚ) 2 3 (fun _ => 1) (fun _ => 0)
        (CArray.fresh (List.replicate 40 0)) = some out ∧
      out.2 = cylinderVerticesSize 3 ∧
      out.1.cells.length = cylinderVerticesSize 3 ∧
      out.1.stored.length = 2 * (3 + 1) * 5 ∧
      out.1.stored = List.range (10 * (3 + 1)) ∧
      (∀ k ∈ out.1.stored, k < cylinderVerticesSize 3) ∧
      (∀ k, k < 10 * (3 + 1) → out.1.stored.count k = 1) ∧
      (∀ k, (vertex5 out.1.cells k).isSome = true ↔ k < 2 * (3 + 1)) :=
  cylinder_exact_fit 3 1 2 3 (fun _ => 1) (fun _ => 0) (by decide)
    (List.replicate 40 0) (by decide)

/-- C3. Cylinder points lie on the cylinder, floats read as real numbers: each of the
`2*(N+1)` vertices `(x, y, z, u, v)` of the generated array satisfies `x^2 + z^2 = r^2` and
`y = -h/2` or `y = h/2`. -/
theorem cylinder_points_on_cylinder (N : Nat) (r h : ℝ) (_hN : 3 ≤ N) (_hr : 0 < r)
    (_hh : 0 < h) (cylinderVertices : CArray ℝ)
    (hsize : cylinderVertices.cells.length = cylinderVerticesSize N)
    (k : Nat) (hk : k < 2 * (N + 1)) :
    ∃ out x y z u v,
      setupCylinderVertices N r h Real.pi Real.cos Real.sin cylinderVertices = some out ∧
      vertex5 out.1.cells k = some (x, y, z, u, v) ∧
      x ^ 2 + z ^ 2 = r ^ 2 ∧ (y = -h / 2 ∨ y = h / 2) := by
  obtain ⟨out, e, -, -, hc⟩ :=
    setupCylinderVertices_run N r h Real.pi Real.cos Real.sin cylinderVertices hsize
  refine ⟨out, r * Real.cos (((k / 2 : Nat) : ℝ) * (2 * Real.pi / (N : ℝ))),
    (if k % 2 = 0 then -h / 2 else h / 2),
    r * Real.sin (((k / 2 : Nat) : ℝ) * (2 * Real.pi / (N : ℝ))), ((k / 2 : Nat) : ℝ) / (N : ℝ),
    (if k % 2 = 0 then 0 else 1), e, ?_, ?_, ?_⟩
  · rw [hc]
    exact cylinder_vertex5 N r h Real.pi Real.cos Real.sin k hk
  · have t := Real.cos_sq_add_sin_sq (((k / 2 : Nat) : ℝ) * (2 * Real.pi / (N : ℝ)))
    calc (r * Real.cos (((k / 2 : Nat) : ℝ) * (2 * Real.pi / (N : ℝ)))) ^ 2 +
          (r * Real.sin (((k / 2 : Nat) : ℝ) * (2 * Real.pi / (N : ℝ)))) ^ 2
        = r ^ 2 * (Real.cos (((k / 2 : Nat) : ℝ) * (2 * Real.pi / (N : ℝ))) ^ 2 +
            Real.sin (((k / 2 : Nat) : ℝ) * (2 * Real.pi / (N : ℝ))) ^ 2) := by ring
      _ = r ^ 2 := by rw [t, mul_one]
  · by_cases h0 : k % 2 = 0
    · left; rw [if_pos h0]
    · right; rw [if_neg h0]

/-- Instance of C3: `N = 4`, `r = 1`, `h = 2`, vertex number 5, on a zeroed array. -/
theorem cylinder_points_on_cylinder_witness :
    ∃ out x y z u v,
      setupCylinderVertices 4 (1 : ℝ) 2 Real.pi Real.cos Real.sin
        (CArray.fresh (List.replicate 50 0)) = some out ∧
      vertex5 out.1.cells 5 = some (x, y, z, u, v) ∧
      x ^ 2 + z ^ 2 = (1 : ℝ) ^ 2 ∧ (y = -2 / 2 ∨ y = 2 / 2) :=
  cylinder_points_on_cylinder 4 1 2 (by norm_num) (by norm_num) (by norm_num)
    (CArray.fresh (List.replicate 50 0)) (by decide) 5 (by norm_num)

/-- C4. Cylinder texture coordinate `u` is monotone and spans `[0,1]`, floats read as real
numbers: listing the `2*(N+1)` vertices in buffer order, the `u` of vertex `k` is at most the
`u` of vertex `k+1`, every `u` lies in `[0,1]`, the first `u` is 0 and the last `u` is 1. -/
theorem cylinder_u_monotone (N : Nat) (r h : ℝ) (hN : 3 ≤ N) (_hr : 0 < r) (_hh : 0 < h)
    (cylinderVertices : CArray ℝ)
    (hsize : cylinderVertices.cells.length = cylinderVerticesSize N) :
    ∃ out, setupCylinderVertices N r h Real.pi Real.cos Real.sin cylinderVertices = some out ∧
      (∀ k, k + 1 < 2 * (N + 1) → ∃ u u', texU out.1.cells k = some u ∧
        texU out.1.cells (k + 1) = some u' ∧ u ≤ u') ∧
      (∀ k, k < 2 * (N + 1) → ∃ u, texU out.1.cells k = some u ∧ 0 ≤ u ∧ u ≤ 1) ∧
      texU out.1.cells 0 = some 0 ∧
      texU out.1.cells (2 * (N + 1) - 1) = some 1 := by
  obtain ⟨out, e, -, -, hc⟩ :=
    setupCylinderVertices_run N r h Real.pi Real.cos Real.sin cylinderVertices hsize
  have hu := fun k hk => cylinder_texU N r h Real.pi Real.cos Real.sin k hk
  have hNpos : (0 : ℝ) < (N : ℝ) := by
    have : 0 < N := by omega
    exact_mod_cast this
  refine ⟨out, e, ?_, ?_, ?_, ?_⟩
  · intro k hk
    refine ⟨_, _, by rw [hc]; exact hu k (by omega), by rw [hc]; exact hu (k + 1) hk, ?_⟩
    have hle : ((k / 2 : Nat) : ℝ) ≤ (((k + 1) / 2 : Nat) : ℝ) := by
      have : k / 2 ≤ (k + 1) / 2 := by omega
      exact_mod_cast this
    exact div_le_div_of_nonneg_right hle hNpos.le
  · intro k hk
    refine ⟨_, by rw [hc]; exact hu k hk, ?_, ?_⟩
    · exact div_nonneg (Nat.cast_nonneg _) hNpos.le
    · rw [div_le_one hNpos]
      have : k / 2 ≤ N := by omega
      exact_mod_cast this
  · rw [hc, hu 0 (by omega)]
    simp
  · rw [hc, hu _ (by omega)]
    have hlast : (2 * (N + 1) - 1) / 2 = N := by omega
    rw [hlast, div_self hNpos.ne']

/-- Instance of C4: `N = 4`, `r = 1`, `h = 2` on a zeroed array. -/
theorem cylinder_u_monotone_witness :
    ∃ out, setupCylinderVertices 4 (1 : ℝ) 2 Real.pi Real.cos Real.sin
        (CArray.fresh (List.replicate 50 0)) = some out ∧
      (∀ k, k + 1 < 2 * (4 + 1) → ∃ u u', texU out.1.cells k = some u ∧
        texU out.1.cells (k + 1) = some u' ∧ u ≤ u') ∧
      (∀ k, k < 2 * (4 + 1) → ∃ u, texU out.1.cells k = some u ∧ 0 ≤ u ∧ u ≤ 1) ∧
      texU out.1.cells 0 = some 0 ∧
      texU out.1.cells (2 * (4 + 1) - 1) = some 1 :=
  cylinder_u_monotone 4 1 2 (by norm_num) (by norm_num) (by norm_num)
    (CArray.fresh (List.replicate 50 0)) (by decide)

/-! ## The sphere generator -/

/-- C5. Sphere indices are in bounds: on freshly declared arrays of the declared sizes the
generator returns; the vertex pass stores `(M+1)*(N+1)` vertices of five floats, to positions
`0, ..., (M+1)*(N+1)*5-1` in this order, and the vertex array holds vertex number `k` exactly
when `k < (M+1)*(N+1)`; exactly `6*M*N` entries of `sphereIndices` are stored, to positions `0, ..., 6*M*N-1` in this
order; every one of them is `< (M+1)*(N+1)`; and the entry `bottomLeft+1` of `i = M-1`,
`j = N-1` equals `(M+1)*(N+1)-1`. -/
theorem sphere_indices_in_bounds {α : Type} [Field α] (M N : Nat) (r pi : α) (cos sin : α → α)
    (hM : 1 ≤ M) (hN : 1 ≤ N) (vcells : List α) (icells : List Nat)
    (hv : vcells.length = sphereVerticesSize M N)
    (hi : icells.length = sphereIndicesSize M N) :
    ∃ res, setupSphereVertices M N r pi cos sin (CArray.fresh vcells) (CArray.fresh icells)
        = some res ∧
      res.vertexIndex = (M + 1) * (N + 1) * 5 ∧
      res.sphereVertices.stored = List.range ((M + 1) * (N + 1) * 5) ∧
      (∀ k, (vertex5 res.sphereVertices.cells k).isSome = true ↔ k < (M + 1) * (N + 1)) ∧
      res.index = 6 * M * N ∧
      res.sphereIndices.stored = List.range (6 * M * N) ∧
      res.sphereIndices.cells.length = 6 * M * N ∧
      (∀ p, p < 6 * M * N →
        ∃ e, res.sphereIndices.cells[p]? = some e ∧ e < (M + 1) * (N + 1)) ∧
      res.sphereIndices.cells[6 * ((M - 1) * N + (N - 1)) + 5]? =
        some ((M + 1) * (N + 1) - 1) := by
  obtain ⟨res, e, hvi, hidx, hvst, hst, hvc, hic⟩ :=
    setupSphereVertices_run M N r pi cos sin (CArray.fresh vcells) (CArray.fresh icells) hv hi
  have h6 : 6 * M * N = 6 * (M * N) := Nat.mul_assoc 6 M N
  have h5 : (M + 1) * (N + 1) * 5 = 5 * ((M + 1) * (N + 1)) := Nat.mul_comm _ 5
  rw [h6, h5]
  refine ⟨res, e, hvi, ?_, ?_, hidx, ?_, ?_, ?_, ?_⟩
  · rw [hvst]
    simp [CArray.fresh]
  · intro k
    rw [hvc]
    constructor
    · intro hsome
      by_contra hlt
      rw [vertex5_map_range_none _ _ _ (by omega)] at hsome
      exact absurd hsome (by simp)
    · intro hk
      rw [vertex5_map_range _ _ _ (by omega)]
      rfl
  · rw [hst]
    simp [CArray.fresh]
  · rw [hic]
    simp
  · intro p hp
    have hNpos : 0 < N := hN
    have hq : p / 6 < M * N := by omega
    have hi' : p / 6 / N < M := by
      apply Nat.div_lt_of_lt_mul
      rw [Nat.mul_comm]
      exact hq
    have hj' : p / 6 % N < N := Nat.mod_lt _ hNpos
    refine ⟨sphereIndexCell N p, ?_, ?_⟩
    · rw [hic, getElem?_map_range _ _ _ hp]
    · exact sphereIndexField_lt M N _ _ _ hi' hj'
  · rw [hic, sphere_index_entry M N (M - 1) (N - 1) 5 (by omega) (by omega) (by omega)]
    have h1 : M - 1 + 1 = M := by omega
    have h2 : (M + 1) * (N + 1) = M * (N + 1) + (N + 1) := Nat.succ_mul M (N + 1)
    show some ((M - 1 + 1) * (N + 1) + (N - 1) + 1) = _
    rw [h1, h2]
    congr 1
    omega

/-- Instance of C5 for `M = 2`, `N = 4` over the rationals, on zeroed arrays of 75 floats and
48 indices. -/
theorem sphere_indices_in_bounds_witness :
    ∃ res, setupSphereVertices 2 4 (1 : ℚ) 3 (fun _ => 1) (fun _ => 0)
        (CArray.fresh (List.replicate 75 0)) (CArray.fresh (List.replicate 48 0)) = some res ∧
      res.vertexIndex = (2 + 1) * (4 + 1) * 5 ∧
      res.sphereVertices.stored = List.range ((2 + 1) * (4 + 1) * 5) ∧
      (∀ k, (vertex5 res.sphereVertices.cells k).isSome = true ↔ k < (2 + 1) * (4 + 1)) ∧
      res.index = 6 * 2 * 4 ∧
      res.sphereIndices.stored = List.range (6 * 2 * 4) ∧
      res.sphereIndices.cells.length = 6 * 2 * 4 ∧
      (∀ p, p < 6 * 2 * 4 →
        ∃ e, res.sphereIndices.cells[p]? = some e ∧ e < (2 + 1) * (4 + 1)) ∧
      res.sphereIndices.cells[6 * ((2 - 1) * 4 + (4 - 1)) + 5]? =
        some ((2 + 1) * (4 + 1) - 1) :=
  sphere_indices_in_bounds 2 4 1 3 (fun _ => 1) (fun _ => 0) (by decide) (by decide)
    (List.replicate 75 0) (List.replicate 48 0) (by decide) (by decide)

/-- C6. Sphere index generation follows the row-major quad formula: for every stack `i < M`
and segment `j < N`, with `topLeft = i*(N+1)+j` and `bottomLeft = (i+1)*(N+1)+j`, the six
entries of `sphereIndices` at positions `6*(i*N+j) .. 6*(i*N+j)+5` are `(topLeft, bottomLeft,
topLeft+1, topLeft+1, bottomLeft, bottomLeft+1)`; and `a*(N+1)+b` is the number of the vertex
that the vertex pass stored for stack `a`, segment `b`. -/
theorem sphere_index_formula {α : Type} [Field α] (M N : Nat) (r pi : α) (cos sin : α → α)
    (_hM : 1 ≤ M) (_hN : 1 ≤ N) (sphereVertices : CArray α) (sphereIndices : CArray Nat)
    (hv : sphereVertices.cells.length = sphereVerticesSize M N)
    (hi : sphereIndices.cells.length = sphereIndicesSize M N) :
    ∃ res, setupSphereVertices M N r pi cos sin sphereVertices sphereIndices = some res ∧
      (∀ i j, i < M → j < N →
        res.sphereIndices.cells[6 * (i * N + j)]? = some (i * (N + 1) + j) ∧
        res.sphereIndices.cells[6 * (i * N + j) + 1]? = some ((i + 1) * (N + 1) + j) ∧
        res.sphereIndices.cells[6 * (i * N + j) + 2]? = some (i * (N + 1) + j + 1) ∧
        res.sphereIndices.cells[6 * (i * N + j) + 3]? = some (i * (N + 1) + j + 1) ∧
        res.sphereIndices.cells[6 * (i * N + j) + 4]? = some ((i + 1) * (N + 1) + j) ∧
        res.sphereIndices.cells[6 * (i * N + j) + 5]? = some ((i + 1) * (N + 1) + j + 1)) ∧
      (∀ a b, a ≤ M → b ≤ N →
        vertex5 res.sphereVertices.cells (a * (N + 1) + b) =
          some (r * sin (pi * (a : α) / (M : α)) * cos (2 * pi * (b : α) / (N : α)),
            r * cos (pi * (a : α) / (M : α)),
            r * sin (pi * (a : α) / (M : α)) * sin (2 * pi * (b : α) / (N : α)),
            (b : α) / (N : α), (a : α) / (M : α))) := by
  obtain ⟨res, e, -, -, -, -, hvc, hic⟩ :=
    setupSphereVertices_run M N r pi cos sin sphereVertices sphereIndices hv hi
  refine ⟨res, e, ?_, ?_⟩
  · intro i j hi' hj'
    have g := fun m hm => sphere_index_entry M N i j m hi' hj' hm
    rw [hic]
    exact ⟨g 0 (by omega), g 1 (by omega), g 2 (by omega), g 3 (by omega), g 4 (by omega),
      g 5 (by omega)⟩
  · intro a b ha hb
    rw [hvc]
    exact sphere_vertex5 M N r pi cos sin a b ha hb

/-- Instance of C6 for `M = 2`, `N = 4` over the rationals: the quad of stack 1, segment 3
occupies positions 42-47 and is `(8, 13, 9, 9, 13, 14)`. -/
theorem sphere_index_formula_witness :
    (setupSphereVertices 2 4 (1 : ℚ) 3 (fun _ => 1) (fun _ => 0)
        (CArray.fresh (List.replicate 75 0)) (CArray.fresh (List.replicate 48 0))).map
      (fun res => ((res.sphereIndices.cells.drop 42).take 6)) = some [8, 13, 9, 9, 13, 14] := by
  obtain ⟨res, e, h, -⟩ := sphere_index_formula 2 4 (1 : ℚ) 3 (fun _ => 1) (fun _ => 0)
    (by decide) (by decide) (CArray.fresh (List.replicate 75 0))
    (CArray.fresh (List.replicate 48 0)) (by decide) (by decide)
  obtain ⟨h0, h1, h2, h3, h4, h5⟩ := h 1 3 (by decide) (by decide)
  rw [e]
  simp only [Option.map_some', Option.some.injEq]
  apply List.ext_getElem?
  intro n
  rw [List.getElem?_take]
  split
  · rw [List.getElem?_drop]
    have hn : n = 0 ∨ n = 1 ∨ n = 2 ∨ n = 3 ∨ n = 4 ∨ n = 5 := by omega
    rcases hn with rfl | rfl | rfl | rfl | rfl | rfl
    · simpa using h0
    · simpa using h1
    · simpa using h2
    · simpa using h3
    · simpa using h4
    · simpa using h5
  · symm
    apply List.getElem?_eq_none
    simp
    omega

/-- C7. Sphere points lie on the sphere, floats read as real numbers: for every stack `i ≤ M`
and segment `j ≤ N` the vertex stored for them, vertex number `i*(N+1)+j`, has position
`(r sin φ cos θ, r cos φ, r sin φ sin θ)` with `φ = π i / M`, `θ = 2 π j / N`, and satisfies
`x^2 + y^2 + z^2 = r^2`; so does each of the `(M+1)*(N+1)` vertices of the array. -/
theorem sphere_points_on_sphere (M N : Nat) (r : ℝ) (_hM : 1 ≤ M) (_hN : 1 ≤ N)
    (sphereVertices : CArray ℝ) (sphereIndices : CArray Nat)
    (hv : sphereVertices.cells.length = sphereVerticesSize M N)
    (hi : sphereIndices.cells.length = sphereIndicesSize M N) :
    ∃ res, setupSphereVertices M N r Real.pi Real.cos Real.sin sphereVertices sphereIndices
        = some res ∧
      (∀ i j, i ≤ M → j ≤ N → ∃ x y z,
        position res.sphereVertices.cells (i * (N + 1) + j) = some (x, y, z) ∧
        x = r * Real.sin (Real.pi * (i : ℝ) / (M : ℝ)) *
              Real.cos (2 * Real.pi * (j : ℝ) / (N : ℝ)) ∧
        y = r * Real.cos (Real.pi * (i : ℝ) / (M : ℝ)) ∧
        z = r * Real.sin (Real.pi * (i : ℝ) / (M : ℝ)) *
              Real.sin (2 * Real.pi * (j : ℝ) / (N : ℝ)) ∧
        x ^ 2 + y ^ 2 + z ^ 2 = r ^ 2) ∧
      (∀ k, k < (M + 1) * (N + 1) → ∃ x y z,
        position res.sphereVertices.cells k = some (x, y, z) ∧
        x ^ 2 + y ^ 2 + z ^ 2 = r ^ 2) := by
  obtain ⟨res, e, -, -, -, -, hvc, -⟩ :=
    setupSphereVertices_run M N r Real.pi Real.cos Real.sin sphereVertices sphereIndices hv hi
  have main : ∀ i j, i ≤ M → j ≤ N → ∃ x y z,
      position res.sphereVertices.cells (i * (N + 1) + j) = some (x, y, z) ∧
      x = r * Real.sin (Real.pi * (i : ℝ) / (M : ℝ)) *
            Real.cos (2 * Real.pi * (j : ℝ) / (N : ℝ)) ∧
      y = r * Real.cos (Real.pi * (i : ℝ) / (M : ℝ)) ∧
      z = r * Real.sin (Real.pi * (i : ℝ) / (M : ℝ)) *
            Real.sin (2 * Real.pi * (j : ℝ) / (N : ℝ)) ∧
      x ^ 2 + y ^ 2 + z ^ 2 = r ^ 2 := by
    intro i j hi' hj'
    refine ⟨_, _, _, ?_, rfl, rfl, rfl, ?_⟩
    · unfold position
      rw [hvc, sphere_vertex5 M N r Real.pi Real.cos Real.sin i j hi' hj']
      rfl
    · have h1 := Real.cos_sq_add_sin_sq (2 * Real.pi * (j : ℝ) / (N : ℝ))
      have h2 := Real.cos_sq_add_sin_sq (Real.pi * (i : ℝ) / (M : ℝ))
      linear_combination
        r ^ 2 * Real.sin (Real.pi * (i : ℝ) / (M : ℝ)) ^ 2 * h1 + r ^ 2 * h2
  refine ⟨res, e, main, ?_⟩
  intro k hk
  have hi' : k / (N + 1) ≤ M := by
    have : k / (N + 1) < M + 1 := by
      apply Nat.div_lt_of_lt_mul
      rw [Nat.mul_comm]
      exact hk
    omega
  have hj' : k % (N + 1) ≤ N := by
    have := Nat.mod_lt k (by omega : 0 < N + 1)
    omega
  obtain ⟨x, y, z, hp, -, -, -, hsq⟩ := main (k / (N + 1)) (k % (N + 1)) hi' hj'
  rw [Nat.div_add_mod' k (N + 1)] at hp
  exact ⟨x, y, z, hp, hsq⟩

/-- Instance of C7: `M = 2`, `N = 4`, `r = 1` on zeroed arrays. -/
theorem sphere_points_on_sphere_witness :
    ∃ res, setupSphereVertices 2 4 (1 : ℝ) Real.pi Real.cos Real.sin
        (CArray.fresh (List.replicate 75 0)) (CArray.fresh (List.replicate 48 0)) = some res ∧
      (∀ i j, i ≤ 2 → j ≤ 4 → ∃ x y z,
        position res.sphereVertices.cells (i * (4 + 1) + j) = some (x, y, z) ∧
        x = 1 * Real.sin (Real.pi * (i : ℝ) / ((2 : Nat) : ℝ)) *
              Real.cos (2 * Real.pi * (j : ℝ) / ((4 : Nat) : ℝ)) ∧
        y = 1 * Real.cos (Real.pi * (i : ℝ) / ((2 : Nat) : ℝ)) ∧
        z = 1 * Real.sin (Real.pi * (i : ℝ) / ((2 : Nat) : ℝ)) *
              Real.sin (2 * Real.pi * (j : ℝ) / ((4 : Nat) : ℝ)) ∧
        x ^ 2 + y ^ 2 + z ^ 2 = (1 : ℝ) ^ 2) ∧
      (∀ k, k < (2 + 1) * (4 + 1) → ∃ x y z,
        position res.sphereVertices.cells k = some (x, y, z) ∧
        x ^ 2 + y ^ 2 + z ^ 2 = (1 : ℝ) ^ 2) :=
  sphere_points_on_sphere 2 4 1 (by decide) (by decide)
    (CArray.fresh (List.replicate 75 0)) (CArray.fresh (List.replicate 48 0))
    (by decide) (by decide)

/-- C8. Sphere poles collapse to single points, floats read as real numbers: every vertex of
stack `0` has position `(0, r, 0)` and every vertex of stack `M` has position `(0, -r, 0)`,
whatever the segment `j ≤ N`; hence in every quad of stack row `0` the first triangle
`(topLeft, bottomLeft, topLeft+1)` has its vertices `topLeft` and `topLeft+1` at one point, and
in every quad of stack row `M-1` the second triangle `(topLeft+1, bottomLeft, bottomLeft+1)` has
its vertices `bottomLeft` and `bottomLeft+1` at one point.  The final counters are
`(M+1)*(N+1)*5` floats and `M*N*6` indices. -/
theorem sphere_poles_collapse (M N : Nat) (r : ℝ) (hM : 1 ≤ M) (_hN : 1 ≤ N)
    (sphereVertices : CArray ℝ) (sphereIndices : CArray Nat)
    (hv : sphereVertices.cells.length = sphereVerticesSize M N)
    (hi : sphereIndices.cells.length = sphereIndicesSize M N) :
    ∃ res, setupSphereVertices M N r Real.pi Real.cos Real.sin sphereVertices sphereIndices
        = some res ∧
      res.vertexIndex = (M + 1) * (N + 1) * 5 ∧ res.index = M * N * 6 ∧
      (∀ j, j ≤ N →
        position res.sphereVertices.cells (0 * (N + 1) + j) = some (0, r, 0) ∧
        position res.sphereVertices.cells (M * (N + 1) + j) = some (0, -r, 0)) ∧
      (∀ j, j < N → ∃ t0 t1 t2,
        res.sphereIndices.cells[6 * (0 * N + j)]? = some t0 ∧
        res.sphereIndices.cells[6 * (0 * N + j) + 1]? = some t1 ∧
        res.sphereIndices.cells[6 * (0 * N + j) + 2]? = some t2 ∧
        t0 ≠ t2 ∧
        position res.sphereVertices.cells t0 = some (0, r, 0) ∧
        position res.sphereVertices.cells t2 = some (0, r, 0)) ∧
      (∀ j, j < N → ∃ t3 t4 t5,
        res.sphereIndices.cells[6 * ((M - 1) * N + j) + 3]? = some t3 ∧
        res.sphereIndices.cells[6 * ((M - 1) * N + j) + 4]? = some t4 ∧
        res.sphereIndices.cells[6 * ((M - 1) * N + j) + 5]? = some t5 ∧
        t4 ≠ t5 ∧
        position res.sphereVertices.cells t4 = some (0, -r, 0) ∧
        position res.sphereVertices.cells t5 = some (0, -r, 0)) := by
  obtain ⟨res, e, hvi, hidx, -, -, hvc, hic⟩ :=
    setupSphereVertices_run M N r Real.pi Real.cos Real.sin sphereVertices sphereIndices hv hi
  have hMne : ((M : ℝ)) ≠ 0 := by
    have : M ≠ 0 := by omega
    exact_mod_cast this
  have north : ∀ j, j ≤ N →
      position res.sphereVertices.cells (0 * (N + 1) + j) = some (0, r, 0) := by
    intro j hj
    unfold position
    rw [hvc, sphere_vertex5 M N r Real.pi Real.cos Real.sin 0 j (Nat.zero_le M) hj]
    simp
  have south : ∀ j, j ≤ N →
      position res.sphereVertices.cells (M * (N + 1) + j) = some (0, -r, 0) := by
    intro j hj
    unfold position
    rw [hvc, sphere_vertex5 M N r Real.pi Real.cos Real.sin M j (Nat.le_refl M) hj]
    have hphi : Real.pi * (M : ℝ) / (M : ℝ) = Real.pi := by field_simp
    rw [hphi]
    simp
  refine ⟨res, e, by rw [hvi]; ring, by rw [hidx]; ring, fun j hj => ⟨north j hj, south j hj⟩,
    ?_, ?_⟩
  · intro j hj
    have g := fun m hm => sphere_index_entry M N 0 j m (by omega) hj hm
    refine ⟨0 * (N + 1) + j, (0 + 1) * (N + 1) + j, 0 * (N + 1) + (j + 1), ?_, ?_, ?_, ?_,
      north j (by omega), north (j + 1) (by omega)⟩
    · rw [hic]; exact g 0 (by omega)
    · rw [hic]; exact g 1 (by omega)
    · rw [hic]; exact g 2 (by omega)
    · omega
  · intro j hj
    have g := fun m hm => sphere_index_entry M N (M - 1) j m (by omega) hj hm
    have hM1 : M - 1 + 1 = M := by omega
    have g4 := g 4 (by omega)
    have g5 := g 5 (by omega)
    simp only [sphereIndexField, hM1] at g4 g5
    refine ⟨(M - 1) * (N + 1) + j + 1, M * (N + 1) + j, M * (N + 1) + (j + 1), ?_, ?_, ?_, ?_,
      south j (by omega), south (j + 1) (by omega)⟩
    · rw [hic]; exact g 3 (by omega)
    · rw [hic]; exact g4
    · rw [hic]; exact g5
    · omega

/-- Scenario of C8: `M = 2`, `N = 4`, `r = 1` on zeroed arrays gives 15 vertices (75 floats),
48 indices, and vertex 0 at `(0, 1, 0)`. -/
theorem sphere_poles_collapse_witness :
    (setupSphereVertices 2 4 (1 : ℝ) Real.pi Real.cos Real.sin
        (CArray.fresh (List.replicate 75 0)) (CArray.fresh (List.replicate 48 0))).map
      (fun res => (res.vertexIndex, res.index)) = some (15 * 5, 48) ∧
    (setupSphereVertices 2 4 (1 : ℝ) Real.pi Real.cos Real.sin
        (CArray.fresh (List.replicate 75 0)) (CArray.fresh (List.replicate 48 0))).bind
      (fun res => position res.sphereVertices.cells 0) = some (0, 1, 0) := by
  obtain ⟨res, e, hvi, hidx, hp, -⟩ := sphere_poles_collapse 2 4 1 (by decide) (by decide)
    (CArray.fresh (List.replicate 75 0)) (CArray.fresh (List.replicate 48 0))
    (by decide) (by decide)
  have h0 := (hp 0 (by decide)).1
  rw [e]
  exact ⟨by simp [hvi, hidx], by simpa using h0⟩

/-! ## Both generators -/

/-- C9. Idempotence of the generators on explicit buffer state: with the same parameters, the
contents that `setupCylinderVertices` leaves in `cylinderVertices`, and that
`setupSphereVertices` leaves in `sphereVertices` and `sphereIndices`, are the same for every
two initial contents of these arrays, and running the generator a second time on the arrays it
has just filled leaves their contents as they are. -/
theorem generators_idempotent {α : Type} [Field α] (pi : α) (cos sin : α → α)
    (N : Nat) (r h : α) (cylinderVertices cylinderVertices' : CArray α)
    (hc : cylinderVertices.cells.length = cylinderVerticesSize N)
    (hc' : cylinderVertices'.cells.length = cylinderVerticesSize N)
    (M S : Nat) (rs : α) (sphereVertices sphereVertices' : CArray α)
    (sphereIndices sphereIndices' : CArray Nat)
    (hv : sphereVertices.cells.length = sphereVerticesSize M S)
    (hv' : sphereVertices'.cells.length = sphereVerticesSize M S)
    (hi : sphereIndices.cells.length = sphereIndicesSize M S)
    (hi' : sphereIndices'.cells.length = sphereIndicesSize M S) :
    (∃ out out' again,
      setupCylinderVertices N r h pi cos sin cylinderVertices = some out ∧
      setupCylinderVertices N r h pi cos sin cylinderVertices' = some out' ∧
      out.1.cells = out'.1.cells ∧
      setupCylinderVertices N r h pi cos sin out.1 = some again ∧
      again.1.cells = out.1.cells) ∧
    (∃ res res' again,
      setupSphereVertices M S rs pi cos sin sphereVertices sphereIndices = some res ∧
      setupSphereVertices M S rs pi cos sin sphereVertices' sphereIndices' = some res' ∧
      res.sphereVertices.cells = res'.sphereVertices.cells ∧
      res.sphereIndices.cells = res'.sphereIndices.cells ∧
      setupSphereVertices M S rs pi cos sin res.sphereVertices res.sphereIndices = some again ∧
      again.sphereVertices.cells = res.sphereVertices.cells ∧
      again.sphereIndices.cells = res.sphereIndices.cells) := by
  constructor
  · obtain ⟨out, e, -, -, c⟩ := setupCylinderVertices_run N r h pi cos sin cylinderVertices hc
    obtain ⟨out', e', -, -, c'⟩ :=
      setupCylinderVertices_run N r h pi cos sin cylinderVertices' hc'
    have hlen : out.1.cells.length = cylinderVerticesSize N := by
      rw [c]
      unfold cylinderVerticesSize
      simp
      omega
    obtain ⟨again, e2, -, -, c2⟩ := setupCylinderVertices_run N r h pi cos sin out.1 hlen
    exact ⟨out, out', again, e, e', by rw [c, c'], e2, by rw [c, c2]⟩
  · obtain ⟨res, e, -, -, -, -, cv, ci⟩ :=
      setupSphereVertices_run M S rs pi cos sin sphereVertices sphereIndices hv hi
    obtain ⟨res', e', -, -, -, -, cv', ci'⟩ :=
      setupSphereVertices_run M S rs pi cos sin sphereVertices' sphereIndices' hv' hi'
    have hlv : res.sphereVertices.cells.length = sphereVerticesSize M S := by
      rw [cv]
      unfold sphereVerticesSize
      simp
      ring
    have hli : res.sphereIndices.cells.length = sphereIndicesSize M S := by
      rw [ci]
      unfold sphereIndicesSize
      simp
      ring
    obtain ⟨again, e2, -, -, -, -, cv2, ci2⟩ :=
      setupSphereVertices_run M S rs pi cos sin res.sphereVertices res.sphereIndices hlv hli
    exact ⟨res, res', again, e, e', by rw [cv, cv'], by rw [ci, ci'], e2, by rw [cv, cv2],
      by rw [ci, ci2]⟩

/-- Instance of C9 over the rationals: cylinder `N = 3` started on an array of zeros and on an
array of sevens, sphere `M = 1`, `S = 1` started on zeros and on sevens. -/
theorem generators_idempotent_witness :
    (∃ out out' again,
      setupCylinderVertices 3 (1 : ℚ) 2 3 (fun x => x) (fun x => x + 1)
        (CArray.fresh (List.replicate 40 0)) = some out ∧
      setupCylinderVertices 3 (1 : ℚ) 2 3 (fun x => x) (fun x => x + 1)
        (CArray.fresh (List.replicate 40 7)) = some out' ∧
      out.1.cells = out'.1.cells ∧
      setupCylinderVertices 3 (1 : ℚ) 2 3 (fun x => x) (fun x => x + 1) out.1 = some again ∧
      again.1.cells = out.1.cells) ∧
    (∃ res res' again,
      setupSphereVertices 1 1 (1 : ℚ) 3 (fun x => x) (fun x => x + 1)
        (CArray.fresh (List.replicate 20 0)) (CArray.fresh (List.replicate 6 0)) = some res ∧
      setupSphereVertices 1 1 (1 : ℚ) 3 (fun x => x) (fun x => x + 1)
        (CArray.fresh (List.replicate 20 7)) (CArray.fresh (List.replicate 6 7)) = some res' ∧
      res.sphereVertices.cells = res'.sphereVertices.cells ∧
      res.sphereIndices.cells = res'.sphereIndices.cells ∧
      setupSphereVertices 1 1 (1 : ℚ) 3 (fun x => x) (fun x => x + 1)
        res.sphereVertices res.sphereIndices = some again ∧
      again.sphereVertices.cells = res.sphereVertices.cells ∧
      again.sphereIndices.cells = res.sphereIndices.cells) :=
  generators_idempotent (3 : ℚ) (fun x => x) (fun x => x + 1) 3 1 2
    (CArray.fresh (List.replicate 40 0)) (CArray.fresh (List.replicate 40 7))
    (by decide) (by decide) 1 1 1
    (CArray.fresh (List.replicate 20 0)) (CArray.fresh (List.replicate 20 7))
    (CArray.fresh (List.replicate 6 0)) (CArray.fresh (List.replicate 6 7))
    (by decide) (by decide) (by decide) (by decide)

/-! ## Device resources of `main` -/

/-- C10, evaluated on the code. On the path where initialisation succeeds and the render loop
ends after `frames` passes, `main` returns 0 and ends with `glfwTerminate`; every resource is
created exactly once; each of the ten resources other than the texture is deleted exactly once;
the texture created by `loadTexture` is deleted by no call at all. -/
theorem main_texture_never_deleted (textureLoaded : Bool) (frames : Nat) :
    (main ⟨true, true, true, textureLoaded, frames⟩).2 = 0 ∧
    (main ⟨true, true, true, textureLoaded, frames⟩).1.getLast? = some Event.glfwTerminate ∧
    (∀ r, (main ⟨true, true, true, textureLoaded, frames⟩).1.count (Event.create r) = 1) ∧
    (∀ r, (main ⟨true, true, true, textureLoaded, frames⟩).1.count (Event.delete r) =
      if r = Resource.textureID then 0 else 1) ∧
    (main ⟨true, true, true, textureLoaded, frames⟩).1.count
      (Event.delete Resource.textureID) = 0 := by
  have hcount : ∀ e : Event, e ≠ Event.frame →
      (main ⟨true, true, true, textureLoaded, frames⟩).1.count e =
        ([Event.create Resource.vertexShader, Event.create Resource.fragmentShader,
          Event.create Resource.shaderProgram,
          Event.delete Resource.vertexShader, Event.delete Resource.fragmentShader,
          Event.create Resource.cylinderVAO, Event.create Resource.cylinderVBO,
          Event.create Resource.planeVAO, Event.create Resource.planeVBO,
          Event.create Resource.planeEBO,
          Event.create Resource.cubeVAO, Event.create Resource.cubeVBO]
          ++ loadTexture textureLoaded
          ++ [Event.delete Resource.planeVAO, Event.delete Resource.planeVBO,
              Event.delete Resource.planeEBO,
              Event.delete Resource.cylinderVAO, Event.delete Resource.cylinderVBO,
              Event.delete Resource.cubeVAO, Event.delete Resource.cubeVBO,
              Event.delete Resource.shaderProgram,
              Event.glfwTerminate]).count e := by
    intro e he
    have hrep : (List.replicate frames Event.frame).count e = 0 := by
      rw [List.count_replicate]
      have : (Event.frame == e) = false := by
        rw [beq_eq_false_iff_ne]
        exact fun h => he h.symm
      rw [this]
      rfl
    simp only [main, Bool.not_true, Bool.false_eq_true, if_false, List.count_append, hrep,
      Nat.add_zero]
  refine ⟨rfl, ?_, ?_, ?_, ?_⟩
  · have hlast : (main ⟨true, true, true, textureLoaded, frames⟩).1 =
        ([Event.create Resource.vertexShader, Event.create Resource.fragmentShader,
          Event.create Resource.shaderProgram,
          Event.delete Resource.vertexShader, Event.delete Resource.fragmentShader,
          Event.create Resource.cylinderVAO, Event.create Resource.cylinderVBO,
          Event.create Resource.planeVAO, Event.create Resource.planeVBO,
          Event.create Resource.planeEBO,
          Event.create Resource.cubeVAO, Event.create Resource.cubeVBO]
          ++ loadTexture textureLoaded
          ++ List.replicate frames Event.frame
          ++ [Event.delete Resource.planeVAO, Event.delete Resource.planeVBO,
              Event.delete Resource.planeEBO,
              Event.delete Resource.cylinderVAO, Event.delete Resource.cylinderVBO,
              Event.delete Resource.cubeVAO, Event.delete Resource.cubeVBO,
              Event.delete Resource.shaderProgram]) ++ [Event.glfwTerminate] := by
      simp [main]
    rw [hlast, List.getLast?_concat]
  · intro r
    rw [hcount _ (by simp)]
    cases r <;> cases textureLoaded <;> decide
  · intro r
    rw [hcount _ (by simp)]
    cases r <;> cases textureLoaded <;> decide
  · rw [hcount _ (by simp)]
    cases textureLoaded <;> decide

end Source
